import Mathlib

/-!
Verification of the DC craft events tracker front end.

The development shallowly embeds the JavaScript source of the repository:
the calendar page (month cursor navigation, day-grid generation, event
bucketing, feed fetching), the event submission form (sanitizers,
validation, submit flow), the time selector and the date picker.

JavaScript machine details that the source relies on are modelled
explicitly: the `Date(year, month, day)` constructor (including the
ECMAScript rule mapping year arguments 0..99 to 1900 + year, and the
calendar normalization of out-of-range month and day arguments),
`Date.prototype.setMonth` (normalization without the two-digit-year
rule), `Number(string)` on the digit strings the code splits dates into,
`parseFloat`, and `String.prototype.split` / `trim` / `replace` /
`padStart`.  `fetch`, `Response.json` and `JSON.parse` are external to
the repository and are modelled by their outcome (success value or
failure), which is what the code branches on.
-/

/-! ## Proleptic Gregorian calendar arithmetic (the model of JS local dates) -/

/-- Gregorian leap-year rule, as used by JS `Date` for local calendar math. -/
def isLeapYear (y : Int) : Bool :=
  y % 4 == 0 && (y % 100 != 0 || y % 400 == 0)

/-- Number of days of 0-based month `m` (0 = January) of year `y`. -/
def daysInMonth (y : Int) (m : Nat) : Int :=
  if m = 0 then 31
  else if m = 1 then (if isLeapYear y then 29 else 28)
  else if m = 2 then 31
  else if m = 3 then 30
  else if m = 4 then 31
  else if m = 5 then 30
  else if m = 6 then 31
  else if m = 7 then 31
  else if m = 8 then 30
  else if m = 9 then 31
  else if m = 10 then 30
  else 31

/-- A JS `Date` value at local midnight, kept as its calendar components:
`year` is the full year, `month` is 0-based (as `getMonth` returns it) and
`day` is the day of month (as `getDate` returns it). -/
structure JsDate where
  year : Int
  month : Nat
  day : Int
deriving DecidableEq

/-- One borrow / carry step chain for an out-of-range day-of-month, with
explicit fuel (the fuel is always ample for the inputs the program builds:
each step moves the day by at least 28). -/
def fixDay : Nat → Int → Nat → Int → Int × Nat × Int
  | 0, y, m, d => (y, m, d)
  | fuel + 1, y, m, d =>
    if d < 1 then
      let y2 := if m = 0 then y - 1 else y
      let m2 := if m = 0 then 11 else m - 1
      fixDay fuel y2 m2 (d + daysInMonth y2 m2)
    else if daysInMonth y m < d then
      let y2 := if m = 11 then y + 1 else y
      let m2 := if m = 11 then 0 else m + 1
      fixDay fuel y2 m2 (d - daysInMonth y m)
    else (y, m, d)

/-- Calendar normalization of arbitrary (year, month, day) component
arguments, as ECMAScript `MakeDay` performs it: months are folded into the
year first, then the day-of-month is rolled across month boundaries. -/
def normDate (y m d : Int) : JsDate :=
  ⟨(fixDay 4000 (y + m.fdiv 12) (m.emod 12).toNat d).1,
   (fixDay 4000 (y + m.fdiv 12) (m.emod 12).toNat d).2.1,
   (fixDay 4000 (y + m.fdiv 12) (m.emod 12).toNat d).2.2⟩

/-- The JS `new Date(year, month, day)` constructor: ECMAScript
`MakeFullYear` maps a year argument in 0..99 to 1900 + year, then the
components are normalized. -/
def jsMakeDate (y m d : Int) : JsDate :=
  normDate (if 0 ≤ y ∧ y ≤ 99 then y + 1900 else y) m d

/-- `Date.prototype.setMonth`: rebuilds the date from the stored year, the
given month argument and the stored day-of-month; the two-digit-year rule
does not apply here. -/
def jsSetMonth (dt : JsDate) (m : Int) : JsDate :=
  normDate dt.year m dt.day

/-- Days since 1970-01-01 of a calendar date with 0-based month `m`
(the civil-from-days algorithm of Howard Hinnant, valid for all years). -/
def daysFromCivil (y : Int) (m : Nat) (d : Int) : Int :=
  let yAdj := if m ≤ 1 then y - 1 else y
  let era := yAdj.fdiv 400
  let yoe := (yAdj - era * 400).toNat
  let mp := (m + 10) % 12
  let doy : Int := (153 * (mp : Int) + 2) / 5 + d - 1
  let doe : Int := (yoe : Int) * 365 + (yoe : Int) / 4 - (yoe : Int) / 100 + doy
  era * 146097 + doe - 719468

/-- `Date.prototype.getDay`: day of week, 0 = Sunday (1970-01-01 was a
Thursday, hence the offset 4). -/
def jsGetDay (dt : JsDate) : Nat :=
  ((daysFromCivil dt.year dt.month dt.day + 4).emod 7).toNat

/-- Comparison of two JS dates at local midnight (`<` on `Date` compares
the underlying timestamps; at equal times of day that is lexicographic
order on the calendar components). -/
def jsDateLt (a b : JsDate) : Bool :=
  a.year < b.year ||
    (a.year == b.year &&
      (a.month < b.month || (a.month == b.month && a.day < b.day)))

/-! ## JS string helpers used by the components -/

/-- JS whitespace as recognized by `String.prototype.trim` and by number
coercion (the characters the sources can realistically contain). -/
def isJsWs (c : Char) : Bool :=
  c = ' ' || c = '\t' || c = '\n' || c = '\r' || c = Char.ofNat 11 || c = Char.ofNat 12

/-- `String.prototype.split` with a single-character separator and no
limit, on the character list of the string. -/
def splitOnChar (sep : Char) : List Char → List (List Char)
  | [] => [[]]
  | c :: rest =>
    match splitOnChar sep rest with
    | [] => [[]]
    | h :: t => if c = sep then [] :: h :: t else (c :: h) :: t

/-- Value of a list of decimal digit characters. -/
def digitsVal (cs : List Char) : Nat :=
  cs.foldl (fun acc c => acc * 10 + (c.toNat - 48)) 0

/-- JS `Number(string)` on the strings this code base feeds it: leading and
trailing whitespace is dropped, the empty string converts to 0, and an
optional minus sign followed by decimal digits converts to the signed
value.  Other forms (hex, decimal points, exponents) convert to NaN and
are modelled as `none`. -/
def jsNumber (cs : List Char) : Option Int :=
  let t := ((cs.dropWhile isJsWs).reverse.dropWhile isJsWs).reverse
  if t = [] then some 0
  else if t.head? = some '-' then
    let ds := t.drop 1
    if ds ≠ [] ∧ ds.all Char.isDigit then some (-(digitsVal ds : Int)) else none
  else if t.all Char.isDigit then some (digitsVal t : Int)
  else none

/-- `String.prototype.padStart(2, "0")`. -/
def padStart2 (s : List Char) : List Char :=
  if s.length < 2 then List.replicate (2 - s.length) '0' ++ s else s

/-! ## Calendar page (src/components/calendarPage.js) -/

/-- An event record as received from the feed (data model of the spec). -/
structure EventRec where
  name : String
  date : String
  time : Option String
  business : Option String
  craft : Option String
  description : Option String
  price : Option Rat
  location_name : Option String
  address : Option String
  city : Option String
  state : Option String
  zip : Option String
  kids : Option Bool
  link : Option String
deriving DecidableEq

/-- `obj[key].push(e)` after `if (!obj[key]) obj[key] = []`: appends to the
list at the first matching key, creating the key (in insertion order, as JS
objects keep it for these keys) if absent. -/
def pushKey {κ α : Type} [DecidableEq κ] : List (κ × List α) → κ → α → List (κ × List α)
  | [], k, e => [(k, [e])]
  | (k2, v) :: t, k, e =>
    if k2 = k then (k2, v ++ [e]) :: t else (k2, v) :: pushKey t k e

/-- Reading `obj[key]`, with a missing key read as the empty bucket. -/
def assocGet {κ α : Type} [DecidableEq κ] : List (κ × List α) → κ → List α
  | [], _ => []
  | (k2, v) :: t, k => if k2 = k then v else assocGet t k

/-- The local date the filter effect derives from an event, lines 87-88 of
calendarPage.js: `event.date.split('-').map(Number)` destructured into
`[year, month, day]`, then `new Date(year, month - 1, day)`.  A missing or
NaN component makes the constructed `Date` invalid; an invalid date has NaN
components and matches no cursor, which is modelled as `none`. -/
def parsedDateNums (s : String) : Option (Int × Int × Int) :=
  match (splitOnChar '-' s.data).map jsNumber with
  | some y :: some m :: some d :: _ => some (y, m, d)
  | _ => none

/-- The constructed `Date` itself (`none` for an invalid date). -/
def eventLocalDate (s : String) : Option JsDate :=
  match parsedDateNums s with
  | some (y, m, d) => some (jsMakeDate y (m - 1) d)
  | none => none

/-- Processing of one event by the filter effect (calendarPage.js lines
86-97): parse the date, compare month then year with the cursor, and push
into the bucket keyed by the day of month. -/
def bucketStep (currentDate : JsDate) (acc : List (Int × List EventRec))
    (event : EventRec) : List (Int × List EventRec) :=
  match eventLocalDate event.date with
  | none => acc
  | some ed =>
    if ed.month = currentDate.month ∧ ed.year = currentDate.year then
      pushKey acc ed.day event
    else acc

/-- The filter effect of calendarPage.js (lines 83-100): iterate every date
key of the event mapping and every event under it, rebuilding the
day-bucket mapping for the cursor from scratch. -/
def filterEvents (allEvents : List (String × List EventRec)) (currentDate : JsDate) :
    List (Int × List EventRec) :=
  allEvents.foldl (fun acc kv => kv.2.foldl (bucketStep currentDate) acc) []

/-- `generateCalendarDays` (calendarPage.js lines 46-56): leading `null`
placeholders up to the weekday of the first of the month, then the day
numbers; `new Date(year, month + 1, 0)` yields the last day of the cursor
month. -/
def generateCalendarDays (currentDate : JsDate) : List (Option Nat) :=
  List.replicate (jsGetDay (jsMakeDate currentDate.year (currentDate.month : Int) 1)) none ++
    (List.range ((jsMakeDate currentDate.year ((currentDate.month : Int) + 1) 0).day).toNat).map
      (fun i => some (i + 1))

/-- `goToNextMonth` (calendarPage.js lines 40-44):
`new Date(prevDate.getFullYear(), prevDate.getMonth() + 1, 1)`. -/
def goToNextMonth (prevDate : JsDate) : JsDate :=
  jsMakeDate prevDate.year ((prevDate.month : Int) + 1) 1

/-- `goToPreviousMonth` (calendarPage.js lines 32-38): copy the cursor and
`setMonth(getMonth() - 1)`. -/
def goToPreviousMonth (prevDate : JsDate) : JsDate :=
  jsSetMonth prevDate ((prevDate.month : Int) - 1)

/-! ### The feed fetch (calendarPage.js lines 58-81) -/

/-- The value a `found_events` property can hold, as far as the code
observes it: an array of event records, or any other value (`Array.isArray`
false, or falsy so that the `body.found_events &&` guard already fails). -/
inductive FoundField where
  | arr (evs : List EventRec) : FoundField
  | notArray : FoundField
deriving DecidableEq

/-- The value `JSON.parse(data.body)` can take, as far as the code observes
it: an object whose `found_events` property is present or absent, or a
non-object value (on which the property read yields nothing usable). -/
inductive ParsedBody where
  | obj (found_events : Option FoundField) : ParsedBody
  | notObj : ParsedBody
deriving DecidableEq

/-- Outcome of `fetch` + `response.json()` + `JSON.parse(data.body)`:
`netError` is a rejected fetch; otherwise `ok` is `response.ok` and
`bodyParse` is the parse of the envelope body (`none` when `response.json()`
rejects or `JSON.parse` throws, e.g. the body is missing or not JSON). -/
inductive FeedResponse where
  | netError : FeedResponse
  | http (ok : Bool) (bodyParse : Option ParsedBody) : FeedResponse
deriving DecidableEq

/-- Grouping of `found_events` by the `date` field of each event
(calendarPage.js lines 66-71). -/
def groupByDate (evs : List EventRec) : List (String × List EventRec) :=
  evs.foldl (fun acc e => pushKey acc e.date e) []

/-- `fetchEvents` (calendarPage.js lines 58-81), as the event mapping in
which it leaves the `allEvents` state: every thrown error is caught (the
state keeps its initial empty value), and a body without an array-valued
`found_events` field takes the logging branch and stores the empty
mapping. -/
def fetchEvents (r : FeedResponse) : List (String × List EventRec) :=
  match r with
  | .netError => []
  | .http ok bodyParse =>
    if !ok then []
    else
      match bodyParse with
      | none => []
      | some body =>
        match body with
        | .obj (some (.arr evs)) => groupByDate evs
        | _ => []

/-- The condition under which `fetchEvents` reaches the processing branch:
a 2xx response whose envelope body parses to an object carrying an
array-valued `found_events`. -/
def feedHasEventsArray (r : FeedResponse) : Bool :=
  match r with
  | .netError => false
  | .http ok bodyParse =>
    ok &&
      match bodyParse with
      | some (.obj (some (.arr _))) => true
      | _ => false

/-! ## Submission form (src/components/eventSubmissionForm.js) -/

/-- Global single-character replacement, the model of
`String.prototype.replace` with a `/x/g` single-character pattern. -/
def replaceAllChar (c : Char) (rep : List Char) : List Char → List Char
  | [] => []
  | x :: t => if x = c then rep ++ replaceAllChar c rep t else x :: replaceAllChar c rep t

/-- `String.prototype.trim`. -/
def jsTrim (s : List Char) : List Char :=
  ((s.dropWhile isJsWs).reverse.dropWhile isJsWs).reverse

/-- The character-level body of `sanitizeInput` (eventSubmissionForm.js
lines 82-90): escape `<`, `>`, the double quote (character 34) and the
apostrophe (character 39) in that order, then trim. -/
def sanitizeChars (l : List Char) : List Char :=
  jsTrim
    (replaceAllChar (Char.ofNat 39) ("&#039;".data)
      (replaceAllChar (Char.ofNat 34) ("&quot;".data)
        (replaceAllChar '>' ("&gt;".data)
          (replaceAllChar '<' ("&lt;".data) l))))

/-- `sanitizeInput` on its string argument. -/
def sanitizeInput (s : String) : String :=
  String.mk (sanitizeChars s.data)

/-- `sanitizeTime` (eventSubmissionForm.js lines 92-108): split the string
on a space into the clock part and the AM/PM modifier, split the clock part
on `:` into hour and minute numbers, apply the 12-hour to 24-hour
adjustment, and zero-pad both fields to two digits.  The JS function
returns `null` only when `split` throws; component strings that `Number`
turns into NaN produce a NaN-bearing output string in JS and are modelled
as `none` (no claim exercises them). -/
def sanitizeTime (time : String) : Option String :=
  let parts := splitOnChar ' ' time.data
  match parts.get? 0, parts.get? 1 with
  | some timeSection, modifier =>
    let nums := (splitOnChar ':' timeSection).map jsNumber
    match nums.get? 0, nums.get? 1 with
    | some (some h), some (some m) =>
      let hours := if modifier = some ("PM".data) ∧ h ≠ 12 then h + 12
        else if modifier = some ("AM".data) ∧ h = 12 then 0
        else h
      some (String.mk (padStart2 (toString hours).data ++ [':'] ++ padStart2 (toString m).data))
    | _, _ => none
  | none, _ => none

/-- `sanitizeDate` (eventSubmissionForm.js lines 110-113): the regex test
for the exact shape 4 digits, dash, 2 digits, dash, 2 digits. -/
def sanitizeDate (date : String) : Option String :=
  match date.data with
  | [c1, c2, c3, c4, s1, c5, c6, s2, c7, c8] =>
    if c1.isDigit ∧ c2.isDigit ∧ c3.isDigit ∧ c4.isDigit ∧ s1 = '-' ∧
        c5.isDigit ∧ c6.isDigit ∧ s2 = '-' ∧ c7.isDigit ∧ c8.isDigit then
      some date
    else none
  | _ => none

/-- `sanitizeBoolean` (eventSubmissionForm.js lines 115-120): a boolean
passes through, anything else (here: the unset state) becomes null. -/
def sanitizeBoolean (input : Option Bool) : Option Bool :=
  match input with
  | some b => some b
  | none => none

/-- A JS number as produced by `parseFloat` when it does not return NaN:
a finite value is kept as the exact fraction `num / den` read off the
literal (`den` a positive power of ten), so that sign tests need no
normalization. -/
inductive JsNum where
  | finite (num : Int) (den : Nat) : JsNum
  | posInf : JsNum
  | negInf : JsNum
deriving DecidableEq

/-- Exponent part of a float literal; an `e` with no following digits is
ignored by `parseFloat` (exponent 0). -/
def parseExp (cs : List Char) : Int :=
  let p := match cs with
    | '-' :: t => (true, t)
    | '+' :: t => (false, t)
    | t => (false, t)
  let ds := p.2.takeWhile Char.isDigit
  if ds = [] then 0
  else if p.1 then -(digitsVal ds : Int) else (digitsVal ds : Int)

/-- The ECMAScript `parseFloat` builtin: skip leading whitespace, then read
the longest prefix that is a signed decimal literal (`Infinity`, digits
with an optional fraction, or a bare fraction, with an optional exponent);
`none` models NaN (no such prefix). -/
def jsParseFloat (s : String) : Option JsNum :=
  let cs := s.data.dropWhile isJsWs
  let p := match cs with
    | '-' :: t => (true, t)
    | '+' :: t => (false, t)
    | t => (false, t)
  let neg := p.1
  if p.2.take 8 = "Infinity".data then some (if neg then .negInf else .posInf)
  else
    let intPart := p.2.takeWhile Char.isDigit
    let cs2 := p.2.dropWhile Char.isDigit
    let fp := match cs2 with
      | '.' :: t => (t.takeWhile Char.isDigit, t.dropWhile Char.isDigit)
      | t => ([], t)
    let fracPart := fp.1
    if intPart = [] ∧ fracPart = [] then none
    else
      let num : Int := (digitsVal intPart : Int) * (10 : Int) ^ fracPart.length +
        (digitsVal fracPart : Int)
      let den : Nat := 10 ^ fracPart.length
      let expVal : Int := match fp.2 with
        | 'e' :: t => parseExp t
        | 'E' :: t => parseExp t
        | _ => 0
      let num2 : Int := if 0 ≤ expVal then num * (10 : Int) ^ expVal.toNat else num
      let den2 : Nat := if 0 ≤ expVal then den else den * 10 ^ (-expVal).toNat
      some (.finite (if neg then -num2 else num2) den2)

/-- Whether a parseFloat result is strictly negative (`priceNum < 0`). -/
def jsNumNeg : JsNum → Bool
  | .finite num _ => num < 0
  | .posInf => false
  | .negInf => true

/-- `isValidEmail` (eventSubmissionForm.js lines 127-130): the regex
`[^\s@]+ @ [^\s@]+ \. [^\s@]+` anchored at both ends.  Equivalently: the
string has exactly one `@`, no whitespace, a nonempty part before the `@`,
and after the `@` a dot that has at least one character on each side. -/
def isValidEmail (email : String) : Bool :=
  match splitOnChar '@' email.data with
  | [lpart, rpart] =>
    lpart ≠ [] && lpart.all (fun c => !isJsWs c) &&
    rpart ≠ [] && rpart.all (fun c => !isJsWs c) &&
    ((rpart.drop 1).dropLast.contains '.')
  | _ => false

/-- `isValidURL` (eventSubmissionForm.js lines 138-145).  `new URL(url)`
is a platform builtin; it is modelled as accepting exactly the strings
with a nonempty ASCII-alphabetic scheme before a colon. -/
def isValidURL (url : String) : Bool :=
  let pre := url.data.takeWhile (fun c => c ≠ ':')
  pre ≠ [] && pre.all Char.isAlpha && url.data.contains ':'

/-- The form draft (`formData` state of eventSubmissionForm.js). -/
structure FormData where
  name : String
  price : String
  description : String
  link : String
  kids : Option Bool
  location : String
  date : String
  time : String
  organization : String
  email : String
deriving DecidableEq

/-- The initial (empty) form draft. -/
def emptyFormData : FormData :=
  { name := "", price := "", description := "", link := "", kids := none,
    location := "", date := "", time := "", organization := "", email := "" }

/-- The per-field error record (`errors` state). -/
structure FormErrors where
  name : String
  price : String
  description : String
  link : String
  kids : String
  location : String
  date : String
  time : String
  organization : String
  email : String
deriving DecidableEq

/-- The object `validateForm` receives from `handleSubmit`: the sanitized
fields, except that `price` keeps the original draft string. -/
structure ValidationInput where
  name : String
  price : String
  description : String
  link : String
  kids : Option Bool
  location : String
  date : Option String
  time : Option String
  organization : String
  email : String
deriving DecidableEq

/-- Truthiness of the `date` and `time` fields as `!data.date` sees them:
null (a failed sanitize) and the empty string are falsy. -/
def falsyOptStr (o : Option String) : Bool :=
  match o with
  | none => true
  | some s => s = ""

/-- `validateForm` (eventSubmissionForm.js lines 156-233). -/
def validateForm (data : ValidationInput) : FormErrors :=
  { name :=
      if jsTrim data.name.data = [] then "Name is required"
      else if 140 < data.name.length then "Name must be less than 140 characters"
      else ""
    email :=
      if jsTrim data.email.data = [] then "Email is required"
      else if 100 < data.email.length then "Email must be less than 100 characters"
      else if !isValidEmail data.email then "Please enter a valid email address"
      else ""
    organization :=
      if jsTrim data.organization.data = [] then "Business name is required"
      else if 200 < data.organization.length then "Business name must be less than 200 characters"
      else ""
    location :=
      if jsTrim data.location.data = [] then "Location name is required"
      else if 200 < data.location.length then "Location name must be less than 200 characters"
      else ""
    link :=
      if jsTrim data.link.data = [] then "Event link is required"
      else if !isValidURL data.link then "Please enter a valid URL (include http:// or https://)"
      else ""
    date := if falsyOptStr data.date then "Date is required" else ""
    time := if falsyOptStr data.time then "Time for event is required" else ""
    price :=
      if data.price ≠ "" then
        match jsParseFloat data.price with
        | none => "Price must be a valid number"
        | some v => if jsNumNeg v then "Price cannot be negative" else ""
      else ""
    description :=
      if data.description ≠ "" ∧ 500 < data.description.length then
        "Description must be less than 500 characters"
      else ""
    kids := "" }

/-- `!Object.values(newErrors).some(error => error)`. -/
def allClear (e : FormErrors) : Bool :=
  e.name = "" && e.price = "" && e.description = "" && e.link = "" && e.kids = "" &&
  e.location = "" && e.date = "" && e.time = "" && e.organization = "" && e.email = ""

/-- The sanitized record built at the top of `handleSubmit` (lines
342-353). -/
structure SanitizedData where
  name : String
  price : Option JsNum
  description : String
  link : String
  kids : Option Bool
  location : String
  date : Option String
  time : Option String
  organization : String
  email : String
deriving DecidableEq

/-- Sanitization of the draft performed by `handleSubmit`. -/
def sanitizeAll (fd : FormData) : SanitizedData :=
  { name := sanitizeInput fd.name
    price := jsParseFloat fd.price
    description := sanitizeInput fd.description
    link := sanitizeInput fd.link
    kids := sanitizeBoolean fd.kids
    location := sanitizeInput fd.location
    date := sanitizeDate fd.date
    time := sanitizeTime fd.time
    organization := sanitizeInput fd.organization
    email := sanitizeInput fd.email }

/-- Outcome of the submission POST: a rejected `fetch`, or a response with
its `ok` flag and whether its body parses as JSON (`response.json()`
resolves). -/
inductive PostResult where
  | netError : PostResult
  | resp (ok : Bool) (bodyIsJson : Bool) : PostResult
deriving DecidableEq

/-- The component state touched by `handleSubmit`. -/
structure SubmitState where
  formData : FormData
  errors : FormErrors
  isSubmitted : Bool
  isSubmitting : Bool
  apiError : String
deriving DecidableEq

/-- The state `handleSubmit` leaves behind, together with the auto-dismiss
timer it schedules for the success banner (the `setTimeout` delay in
milliseconds), if any. -/
structure SubmitResult where
  st : SubmitState
  dismissTimerMs : Option Nat
deriving DecidableEq

/-- The fixed failure banner text set in the catch block. -/
def submitFailedMsg : String := "Failed to submit event. Please try again."

/-- The error record `handleSubmit` computes: validation of the sanitized
draft, except that `price` keeps the original draft string
(eventSubmissionForm.js lines 356-359). -/
def submitValidation (fd : FormData) : FormErrors :=
  validateForm
    { name := (sanitizeAll fd).name, price := fd.price,
      description := (sanitizeAll fd).description, link := (sanitizeAll fd).link,
      kids := (sanitizeAll fd).kids, location := (sanitizeAll fd).location,
      date := (sanitizeAll fd).date, time := (sanitizeAll fd).time,
      organization := (sanitizeAll fd).organization, email := (sanitizeAll fd).email }

/-- `handleSubmit` (eventSubmissionForm.js lines 340-417): sanitize,
validate (with the original price string), and if all-clear POST the
sanitized record; any throw (rejected fetch, non-2xx, or a 2xx body that
`response.json()` cannot parse) is caught, surfaces the failure banner and
leaves the draft untouched; a 2xx response with a JSON body resets the
draft, shows the success banner and schedules its dismissal after 3000 ms. -/
def handleSubmit (s0 : SubmitState) (post : PostResult) : SubmitResult :=
  if allClear (submitValidation s0.formData) then
    match post with
    | .netError =>
      ⟨{ s0 with errors := submitValidation s0.formData, apiError := submitFailedMsg, isSubmitting := false }, none⟩
    | .resp ok bodyIsJson =>
      if !ok then
        ⟨{ s0 with errors := submitValidation s0.formData, apiError := submitFailedMsg, isSubmitting := false }, none⟩
      else if !bodyIsJson then
        ⟨{ s0 with errors := submitValidation s0.formData, apiError := submitFailedMsg, isSubmitting := false }, none⟩
      else
        ⟨{ formData := emptyFormData, errors := submitValidation s0.formData, isSubmitted := true, isSubmitting := false, apiError := "" }, some 3000⟩
  else ⟨{ s0 with errors := submitValidation s0.formData }, none⟩

/-! ## Time selector (src/components/timeSelector.js) -/

/-- `generateTimeOptions` (timeSelector.js lines 27-36): for each hour 1
to 12 push the full and the half hour. -/
def generateTimeOptions : List String :=
  (List.range 12).foldl
    (fun acc h => acc ++ [toString (h + 1) ++ ":00", toString (h + 1) ++ ":30"]) []

/-- `handleTimeSelection` (timeSelector.js lines 44-48): the emitted value
is the chosen grid time joined with the active AM/PM format. -/
def handleTimeSelection (time fmt : String) : String :=
  time ++ " " ++ fmt

/-! ## Date picker (datePicker.js, month-selection view) -/

/-- The `isPastMonth` computation of the month-selection grid
(datePicker.js lines 250-253): `monthDate` is the first of the cell month
in the displayed year, and `today` is the current date at local midnight. -/
def isPastMonth (displayedYear : Int) (index : Nat) (today : JsDate) : Bool :=
  let monthDate := jsMakeDate displayedYear (index : Int) 1
  jsDateLt monthDate today && monthDate.year == today.year &&
    decide (monthDate.month < today.month)

/-! ## Basic facts about the date model -/

theorem one_le_daysInMonth (y : Int) (m : Nat) : 1 ≤ daysInMonth y m := by
  unfold daysInMonth
  repeat' split
  all_goals decide

theorem daysInMonth_le_31 (y : Int) (m : Nat) : daysInMonth y m ≤ 31 := by
  unfold daysInMonth
  repeat' split
  all_goals decide

theorem fixDay_of_valid (fuel : Nat) (y : Int) (m : Nat) (d : Int)
    (h1 : 1 ≤ d) (h2 : d ≤ daysInMonth y m) :
    fixDay (fuel + 1) y m d = (y, m, d) := by
  unfold fixDay
  rw [if_neg (by omega), if_neg (by omega)]

theorem fdiv_twelve_eq_zero (a : Int) (h0 : 0 ≤ a) (h : a < 12) : a.fdiv 12 = 0 := by
  obtain ⟨n, rfl⟩ := Int.eq_ofNat_of_zero_le h0
  rw [show (12 : Int) = ((12 : Nat) : Int) from rfl, ← Int.ofNat_fdiv]
  have hn : n < 12 := by exact_mod_cast h
  simp [Nat.div_eq_of_lt hn]

theorem normDate_of_valid (y mi d : Int) (h0 : 0 ≤ mi) (h11 : mi ≤ 11)
    (hd1 : 1 ≤ d) (hd2 : d ≤ daysInMonth y mi.toNat) :
    normDate y mi d = ⟨y, mi.toNat, d⟩ := by
  unfold normDate
  rw [fdiv_twelve_eq_zero mi h0 (by omega),
    show Int.emod mi 12 = mi from Int.emod_eq_of_lt h0 (by omega), add_zero,
    fixDay_of_valid 3999 y mi.toNat d hd1 hd2]

theorem jsMakeDate_of_valid (y mi d : Int) (hq : y < 0 ∨ 100 ≤ y)
    (h0 : 0 ≤ mi) (h11 : mi ≤ 11) (hd1 : 1 ≤ d) (hd2 : d ≤ daysInMonth y mi.toNat) :
    jsMakeDate y mi d = ⟨y, mi.toNat, d⟩ := by
  unfold jsMakeDate
  rw [if_neg (by omega)]
  exact normDate_of_valid y mi d h0 h11 hd1 hd2

theorem normDate_twelve (y : Int) (d : Int) (hd1 : 1 ≤ d) (hd2 : d ≤ 31) :
    normDate y 12 d = ⟨y + 1, 0, d⟩ := by
  unfold normDate
  rw [show (12 : Int).fdiv 12 = 1 from rfl, show ((12 : Int).emod 12).toNat = 0 from rfl,
    fixDay_of_valid 3999 (y + 1) 0 d hd1 (by unfold daysInMonth; norm_num; omega)]

theorem toNat_cast_add_one (m : Nat) : ((m : Int) + 1).toNat = m + 1 := by omega

/-! ## C4: next-month navigation -/

/-- C4 (counterexample): the claim quantifies over every month cursor, but
for a cursor in December of year 50 the `new Date(year, month + 1, 1)`
rebuild maps the year through the ECMAScript two-digit-year rule, landing
on January 1951 instead of January 51. -/
theorem goToNextMonth_counterexample :
    goToNextMonth ⟨50, 11, 1⟩ = ⟨1951, 0, 1⟩ ∧ (1951 : Int) ≠ 50 + 1 := by
  constructor
  · decide
  · decide

/-- C4 (amended): for every month cursor whose year is outside the
two-digit range 0..99, "next" sets the cursor to day 1 of the immediately
following month: December of year Y lands on January of year Y + 1, any
other month moves to the next month of the same year, always on the valid
day 1 and never skipping or aliasing regardless of the day counts of the
months involved. -/
theorem goToNextMonth_next_month (c : JsDate) (hq : c.year < 0 ∨ 100 ≤ c.year)
    (hm : c.month ≤ 11) :
    goToNextMonth c =
      if c.month = 11 then ⟨c.year + 1, 0, 1⟩ else ⟨c.year, c.month + 1, 1⟩ := by
  unfold goToNextMonth jsMakeDate
  rw [if_neg (by omega)]
  by_cases h : c.month = 11
  · rw [if_pos h, h]
    rw [show ((11 : Nat) : Int) + 1 = 12 from rfl]
    exact normDate_twelve c.year 1 (by norm_num) (by norm_num)
  · rw [if_neg h]
    rw [normDate_of_valid c.year ((c.month : Int) + 1) 1 (by omega) (by omega) (by norm_num)
      (one_le_daysInMonth c.year _), toNat_cast_add_one]

/-- C4 (witness): the amended statement at the concrete cursor December
2025, which lands on January 1 of 2026. -/
theorem goToNextMonth_next_month_witness :
    ((2025 : Int) < 0 ∨ 100 ≤ (2025 : Int)) ∧ (11 : Nat) ≤ 11 ∧
    goToNextMonth ⟨2025, 11, 5⟩ =
      if (11 : Nat) = 11 then ⟨2025 + 1, 0, 1⟩ else ⟨2025, 11 + 1, 1⟩ :=
  ⟨by norm_num, le_refl 11, goToNextMonth_next_month ⟨2025, 11, 5⟩ (by norm_num) (by norm_num)⟩

/-! ## C5: previous-month navigation -/

/-- C5 (code bug): `goToPreviousMonth` keeps the day-of-month while calling
`setMonth(month - 1)`, so from the cursor March 31 2025 the rebuilt date is
February 31 2025, which normalizes back into March: the cursor lands on
March 3 2025 and the year+month component is not one month earlier, contrary
to the documented intent of navigating to the previous month. -/
theorem goToPreviousMonth_day_overflow_bug :
    goToPreviousMonth ⟨2025, 2, 31⟩ = ⟨2025, 2, 3⟩ ∧
    (goToPreviousMonth ⟨2025, 2, 31⟩).month ≠ 1 := by
  constructor
  · decide
  · decide

/-! ## C3: feed failure degrades to an empty mapping -/

/-- C3: whenever the feed interaction does not produce a 2xx response whose
envelope body parses to an object with an array-valued `found_events` field
(network error, non-2xx status, unparseable body, absent or non-array
field), the stored event mapping is empty and consequently every day bucket
of every month cursor is empty; `fetchEvents` is a total function, so no
error escapes. -/
theorem fetchEvents_failure_modes_empty (r : FeedResponse)
    (h : feedHasEventsArray r = false) :
    fetchEvents r = [] ∧
    ∀ (cursor : JsDate) (day : Int),
      assocGet (filterEvents (fetchEvents r) cursor) day = [] := by
  have he : fetchEvents r = [] := by
    cases r with
    | netError => rfl
    | http ok bodyParse =>
      cases ok with
      | false => rfl
      | true =>
        cases bodyParse with
        | none => rfl
        | some body =>
          cases body with
          | notObj => rfl
          | obj ff =>
            cases ff with
            | none => rfl
            | some f =>
              cases f with
              | notArray => rfl
              | arr evs => simp [feedHasEventsArray] at h
  refine ⟨he, ?_⟩
  intro cursor day
  rw [he]
  rfl

/-- C3 (witness): the failure condition and the conclusion hold at the
concrete input of a rejected fetch, with the bucket read at day 5 of the
October 2025 cursor. -/
theorem fetchEvents_failure_modes_empty_witness :
    feedHasEventsArray .netError = false ∧
    fetchEvents .netError = [] ∧
    assocGet (filterEvents (fetchEvents .netError) ⟨2025, 9, 11⟩) 5 = [] :=
  ⟨rfl, (fetchEvents_failure_modes_empty .netError rfl).1,
    (fetchEvents_failure_modes_empty .netError rfl).2 ⟨2025, 9, 11⟩ 5⟩

/-! ## C9: past-month disabling in the date picker -/

theorem jsMakeDate_day_one (y : Int) (index : Nat) (hidx : index ≤ 11) :
    jsMakeDate y (index : Int) 1 =
      ⟨if 0 ≤ y ∧ y ≤ 99 then y + 1900 else y, index, 1⟩ := by
  unfold jsMakeDate
  rw [normDate_of_valid _ (index : Int) 1 (by omega) (by omega) (by norm_num)
    (one_le_daysInMonth _ _)]
  simp

/-- C9: in the month-selection view, a month cell is marked past exactly
when the displayed year equals the current year and the cell month is less
than the current month; in particular for a displayed year strictly before
the current year no cell is disabled.  The hypothesis `2000 ≤ today.year`
records that `today` is the clock date (it rules out the two-digit-year
constructor rule interfering, which would need the current year to be
before 2000). -/
theorem isPastMonth_only_current_year (y : Int) (index : Nat) (today : JsDate)
    (hidx : index ≤ 11) (hy : 2000 ≤ today.year) :
    (isPastMonth y index today = true ↔ (y = today.year ∧ index < today.month)) ∧
    (y < today.year → isPastMonth y index today = false) := by
  have hmain : isPastMonth y index today = true ↔ (y = today.year ∧ index < today.month) := by
    unfold isPastMonth
    rw [jsMakeDate_day_one y index hidx]
    by_cases hq : 0 ≤ y ∧ y ≤ 99
    · rw [if_pos hq]
      simp only [jsDateLt, Bool.and_eq_true, Bool.or_eq_true, decide_eq_true_eq,
        beq_iff_eq]
      omega
    · rw [if_neg hq]
      simp only [jsDateLt, Bool.and_eq_true, Bool.or_eq_true, decide_eq_true_eq,
        beq_iff_eq]
      omega
  refine ⟨hmain, ?_⟩
  intro hlt
  cases hb : isPastMonth y index today with
  | false => rfl
  | true => exact absurd (hmain.mp hb).1 (by omega)

/-- C9 (witness): at displayed year 2025, cell index 3 (April) and the
current date October 11 2025 the characterization marks the cell past. -/
theorem isPastMonth_only_current_year_witness :
    isPastMonth 2025 3 ⟨2025, 9, 11⟩ = true :=
  (isPastMonth_only_current_year 2025 3 ⟨2025, 9, 11⟩ (by norm_num) (by norm_num)).1.mpr
    ⟨rfl, by norm_num⟩

/-! ## C2: day-grid generation -/

theorem fixDay_day_zero (fuel : Nat) (y : Int) (m : Nat) :
    fixDay (fuel + 2) y m 0 =
      ((if m = 0 then y - 1 else y), (if m = 0 then 11 else m - 1),
        daysInMonth (if m = 0 then y - 1 else y) (if m = 0 then 11 else m - 1)) := by
  rw [show fuel + 2 = (fuel + 1) + 1 from rfl]
  unfold fixDay
  rw [if_pos (show (0 : Int) < 1 by norm_num)]
  show fixDay (fuel + 1) (if m = 0 then y - 1 else y) (if m = 0 then 11 else m - 1)
      (0 + daysInMonth (if m = 0 then y - 1 else y) (if m = 0 then 11 else m - 1)) = _
  rw [zero_add]
  exact fixDay_of_valid fuel _ _ _ (one_le_daysInMonth _ _) (le_refl _)

theorem jsMakeDate_day_zero (y : Int) (hq : y < 0 ∨ 100 ≤ y) (m : Nat) (hm : m ≤ 11) :
    jsMakeDate y ((m : Int) + 1) 0 = ⟨y, m, daysInMonth y m⟩ := by
  unfold jsMakeDate
  rw [if_neg (by omega)]
  unfold normDate
  by_cases h : m = 11
  · subst h
    rw [show ((11 : Nat) : Int) + 1 = 12 from rfl]
    rw [show (12 : Int).fdiv 12 = 1 from rfl, show ((12 : Int).emod 12).toNat = 0 from rfl]
    rw [show (4000 : Nat) = 3998 + 2 from rfl, fixDay_day_zero]
    norm_num
  · rw [fdiv_twelve_eq_zero ((m : Int) + 1) (by omega) (by omega)]
    rw [show Int.emod ((m : Int) + 1) 12 = (m : Int) + 1 from
      Int.emod_eq_of_lt (by omega) (by omega)]
    rw [toNat_cast_add_one, add_zero]
    rw [show (4000 : Nat) = 3998 + 2 from rfl, fixDay_day_zero]
    simp

/-- C2 (counterexample): the claim quantifies over every month cursor, but
for the cursor February of year 0 the code builds the grid through
`new Date(0, 1, 1)` and `new Date(0, 2, 0)`, which the two-digit-year rule
maps to 1900: the grid has length 32 (Thursday start, 28 days of February
1900), while firstWeekday + daysInMonth for (year 0, February) is
2 + 29 = 31. -/
theorem generateCalendarDays_counterexample :
    (generateCalendarDays ⟨0, 1, 1⟩).length = 32 ∧
    jsGetDay ⟨0, 1, 1⟩ + (daysInMonth 0 1).toNat = 31 := by
  constructor
  · decide
  · decide

/-- C2 (amended): for every month cursor whose year is outside the
two-digit range 0..99, the generated grid is exactly `firstWeekday` empty
placeholders (`firstWeekday` the weekday of the first of the cursor month,
0 = Sunday) followed by the day numbers 1..daysInMonth in increasing order,
and its length is exactly firstWeekday + daysInMonth, with no trailing
padding to a multiple of 7. -/
theorem generateCalendarDays_spec (c : JsDate) (hq : c.year < 0 ∨ 100 ≤ c.year)
    (hm : c.month ≤ 11) :
    generateCalendarDays c =
      List.replicate (jsGetDay ⟨c.year, c.month, 1⟩) none ++
        (List.range (daysInMonth c.year c.month).toNat).map (fun i => some (i + 1)) ∧
    (generateCalendarDays c).length =
      jsGetDay ⟨c.year, c.month, 1⟩ + (daysInMonth c.year c.month).toNat := by
  have h1 : jsMakeDate c.year (c.month : Int) 1 = ⟨c.year, c.month, 1⟩ := by
    rw [jsMakeDate_of_valid _ _ _ hq (by omega) (by omega) (by norm_num)
      (one_le_daysInMonth _ _)]
    simp
  have h0 : jsMakeDate c.year ((c.month : Int) + 1) 0 =
      ⟨c.year, c.month, daysInMonth c.year c.month⟩ :=
    jsMakeDate_day_zero c.year hq c.month hm
  have hgrid : generateCalendarDays c =
      List.replicate (jsGetDay ⟨c.year, c.month, 1⟩) none ++
        (List.range (daysInMonth c.year c.month).toNat).map (fun i => some (i + 1)) := by
    unfold generateCalendarDays
    rw [h1, h0]
  refine ⟨hgrid, ?_⟩
  rw [hgrid]
  simp

/-- C2 (witness): the amended statement at the cursor October 2025:
firstWeekday 3 (a Wednesday), 31 days, grid length 34. -/
theorem generateCalendarDays_spec_witness :
    ((2025 : Int) < 0 ∨ 100 ≤ (2025 : Int)) ∧ (9 : Nat) ≤ 11 ∧
    (generateCalendarDays ⟨2025, 9, 1⟩ =
        List.replicate (jsGetDay ⟨2025, 9, 1⟩) none ++
          (List.range (daysInMonth 2025 9).toNat).map (fun i => some (i + 1)) ∧
      (generateCalendarDays ⟨2025, 9, 1⟩).length =
        jsGetDay ⟨2025, 9, 1⟩ + (daysInMonth 2025 9).toNat) :=
  ⟨by norm_num, by norm_num, generateCalendarDays_spec ⟨2025, 9, 1⟩ (by norm_num) (by norm_num)⟩

/-! ## C1: event bucketing -/

/-- All events of the mapping, in iteration order (every event in every
key). -/
def allEventsOf (evs : List (String × List EventRec)) : List EventRec :=
  (evs.map Prod.snd).flatten

/-- Whether the filter effect routes event `e` into the bucket of day `k`
under the given cursor. -/
def matchesCursorDay (cursor : JsDate) (k : Int) (e : EventRec) : Bool :=
  match eventLocalDate e.date with
  | none => false
  | some ed => ed.month == cursor.month && ed.year == cursor.year && ed.day == k

theorem bucketStep_eq_none (cursor : JsDate) (acc : List (Int × List EventRec))
    (e : EventRec) (hp : eventLocalDate e.date = none) :
    bucketStep cursor acc e = acc := by
  unfold bucketStep
  rw [hp]

theorem bucketStep_eq_some (cursor : JsDate) (acc : List (Int × List EventRec))
    (e : EventRec) (ed : JsDate) (hp : eventLocalDate e.date = some ed) :
    bucketStep cursor acc e =
      if ed.month = cursor.month ∧ ed.year = cursor.year then pushKey acc ed.day e else acc := by
  unfold bucketStep
  rw [hp]

theorem assocGet_pushKey_self {κ α : Type} [DecidableEq κ] (l : List (κ × List α))
    (k : κ) (e : α) : assocGet (pushKey l k e) k = assocGet l k ++ [e] := by
  induction l with
  | nil => simp [pushKey, assocGet]
  | cons hd t ih =>
    obtain ⟨k3, v⟩ := hd
    by_cases h3 : k3 = k
    · subst h3
      simp [pushKey, assocGet]
    · simp only [pushKey, if_neg h3, assocGet]
      exact ih

theorem assocGet_pushKey_ne {κ α : Type} [DecidableEq κ] (l : List (κ × List α))
    {k k2 : κ} (h : k ≠ k2) (e : α) : assocGet (pushKey l k e) k2 = assocGet l k2 := by
  induction l with
  | nil => simp [pushKey, assocGet, h]
  | cons hd t ih =>
    obtain ⟨k3, v⟩ := hd
    by_cases h3 : k3 = k
    · subst h3
      simp only [pushKey, if_pos rfl, assocGet]
      rw [if_neg (by intro hh; exact h hh), if_neg (by intro hh; exact h hh)]
    · simp only [pushKey, if_neg h3, assocGet]
      by_cases h2 : k3 = k2
      · rw [if_pos h2, if_pos h2]
      · rw [if_neg h2, if_neg h2]
        exact ih

theorem assocGet_foldl_bucketStep (cursor : JsDate) (l : List EventRec)
    (acc : List (Int × List EventRec)) (k : Int) :
    assocGet (l.foldl (bucketStep cursor) acc) k =
      assocGet acc k ++ l.filter (matchesCursorDay cursor k) := by
  induction l generalizing acc with
  | nil => simp
  | cons e t ih =>
    rw [List.foldl_cons, ih, List.filter_cons]
    cases hp : eventLocalDate e.date with
    | none =>
      have hm : matchesCursorDay cursor k e = false := by
        unfold matchesCursorDay
        rw [hp]
      rw [bucketStep_eq_none cursor acc e hp, hm]
      simp
    | some ed =>
      have hm : matchesCursorDay cursor k e =
          (ed.month == cursor.month && ed.year == cursor.year && ed.day == k) := by
        unfold matchesCursorDay
        rw [hp]
      rw [bucketStep_eq_some cursor acc e ed hp]
      by_cases hc : ed.month = cursor.month ∧ ed.year = cursor.year
      · rw [if_pos hc]
        by_cases hd : ed.day = k
        · subst hd
          rw [assocGet_pushKey_self]
          have hmt : matchesCursorDay cursor ed.day e = true := by
            rw [hm]
            simp [hc.1, hc.2]
          rw [hmt]
          simp
        · rw [assocGet_pushKey_ne _ hd]
          have hmf : matchesCursorDay cursor k e = false := by
            rw [hm]
            simp [hd]
          rw [hmf]
          simp
      · have hmf : matchesCursorDay cursor k e = false := by
          rw [hm]
          rcases not_and_or.mp hc with h | h <;> simp [h]
        rw [if_neg hc, hmf]
        simp

theorem assocGet_filterEvents (evs : List (String × List EventRec)) (cursor : JsDate)
    (k : Int) :
    assocGet (filterEvents evs cursor) k =
      (allEventsOf evs).filter (matchesCursorDay cursor k) := by
  suffices h : ∀ acc, assocGet
      (evs.foldl (fun acc kv => kv.2.foldl (bucketStep cursor) acc) acc) k =
      assocGet acc k ++ (allEventsOf evs).filter (matchesCursorDay cursor k) by
    have h0 := h []
    simpa [filterEvents] using h0
  induction evs with
  | nil =>
    intro acc
    simp [allEventsOf]
  | cons kv t ih =>
    intro acc
    rw [List.foldl_cons, ih, assocGet_foldl_bucketStep]
    simp [allEventsOf, List.filter_append]

/-- C1 (counterexample): the claim quantifies over every normalized event
mapping, but an event dated `0050-05-01` is routed through
`new Date(50, 4, 1)`, which the two-digit-year rule turns into May 1 1950:
under the cursor May 1950 the event lands in bucket 1 although its date
year (50) differs from the cursor year (1950), contradicting the clause
that an event with a different year is assigned to no bucket. -/
theorem filterEvents_counterexample :
    parsedDateNums "0050-05-01" = some (50, 5, 1) ∧
    (50 : Int) ≠ (⟨1950, 4, 1⟩ : JsDate).year ∧
    (⟨"Quirk event", "0050-05-01", none, none, none, none, none, none, none, none,
        none, none, none, none⟩ : EventRec) ∈
      assocGet (filterEvents
        [("0050-05-01", [⟨"Quirk event", "0050-05-01", none, none, none, none, none,
          none, none, none, none, none, none, none⟩])] ⟨1950, 4, 1⟩) 1 := by
  refine ⟨by decide, by decide, ?_⟩
  decide

/-- C1 (amended): for every normalized event mapping and every month
cursor, an event whose `date` parses to a valid calendar date (year, month,
day) with year at least 100 (outside the two-digit-year constructor rule)
is bucketed by its local-calendar components: if the date year equals the
cursor year and the 0-based cursor month equals month - 1, the event
appears in the bucket keyed by its day-of-month with exactly the
multiplicity it has in the mapping and in no other bucket; if year or
month differ from the cursor, it appears in no bucket at all. -/
theorem filterEvents_buckets (evs : List (String × List EventRec)) (cursor : JsDate)
    (e : EventRec) (y m d : Int)
    (hparse : parsedDateNums e.date = some (y, m, d))
    (hy : 100 ≤ y) (hm1 : 1 ≤ m) (hm2 : m ≤ 12)
    (hd1 : 1 ≤ d) (hd2 : d ≤ daysInMonth y (m - 1).toNat) :
    ((y = cursor.year ∧ (cursor.month : Int) = m - 1) →
      (assocGet (filterEvents evs cursor) d).count e = (allEventsOf evs).count e ∧
      (e ∈ assocGet (filterEvents evs cursor) d ↔ e ∈ allEventsOf evs) ∧
      ∀ k : Int, k ≠ d → e ∉ assocGet (filterEvents evs cursor) k) ∧
    (¬(y = cursor.year ∧ (cursor.month : Int) = m - 1) →
      ∀ k : Int, e ∉ assocGet (filterEvents evs cursor) k) := by
  have hed : eventLocalDate e.date = some ⟨y, (m - 1).toNat, d⟩ := by
    unfold eventLocalDate
    rw [hparse]
    show some (jsMakeDate y (m - 1) d) = _
    rw [jsMakeDate_of_valid y (m - 1) d (Or.inr (by omega)) (by omega) (by omega) hd1 hd2]
  have hmatch : ∀ k : Int, matchesCursorDay cursor k e =
      (((m - 1).toNat == cursor.month) && (y == cursor.year) && (d == k)) := by
    intro k
    unfold matchesCursorDay
    rw [hed]
  constructor
  · rintro ⟨hyy, hmm⟩
    have hTrue : matchesCursorDay cursor d e = true := by
      rw [hmatch]
      simp only [Bool.and_eq_true, beq_iff_eq]
      refine ⟨⟨?_, ?_⟩, trivial⟩
      · omega
      · omega
    refine ⟨?_, ?_, ?_⟩
    · rw [assocGet_filterEvents, List.count_filter hTrue]
    · rw [assocGet_filterEvents]
      simp [List.mem_filter, hTrue]
    · intro k hk
      rw [assocGet_filterEvents]
      intro hmem
      have := (List.mem_filter.mp hmem).2
      rw [hmatch] at this
      simp only [Bool.and_eq_true, beq_iff_eq] at this
      exact hk this.2.symm
  · intro hnot k
    rw [assocGet_filterEvents]
    intro hmem
    have := (List.mem_filter.mp hmem).2
    rw [hmatch] at this
    simp only [Bool.and_eq_true, beq_iff_eq] at this
    apply hnot
    constructor
    · exact this.1.2
    · omega

/-- C1 (witness): a one-event mapping dated 2025-10-11 under the cursor
October 2025: the event is counted exactly once in bucket 11, membership
agrees with the mapping, and bucket 5 does not contain it. -/
theorem filterEvents_buckets_witness :
    (assocGet (filterEvents
        [("2025-10-11", [⟨"Oct event", "2025-10-11", none, none, none, none, none,
          none, none, none, none, none, none, none⟩])] ⟨2025, 9, 1⟩) 11).count
        ⟨"Oct event", "2025-10-11", none, none, none, none, none,
          none, none, none, none, none, none, none⟩ =
      (allEventsOf [("2025-10-11", [⟨"Oct event", "2025-10-11", none, none, none, none,
          none, none, none, none, none, none, none, none⟩])]).count
        ⟨"Oct event", "2025-10-11", none, none, none, none, none,
          none, none, none, none, none, none, none⟩ ∧
    ((⟨"Oct event", "2025-10-11", none, none, none, none, none,
        none, none, none, none, none, none, none⟩ : EventRec) ∈
      assocGet (filterEvents
        [("2025-10-11", [⟨"Oct event", "2025-10-11", none, none, none, none, none,
          none, none, none, none, none, none, none⟩])] ⟨2025, 9, 1⟩) 11 ↔
      (⟨"Oct event", "2025-10-11", none, none, none, none, none,
        none, none, none, none, none, none, none⟩ : EventRec) ∈
      allEventsOf [("2025-10-11", [⟨"Oct event", "2025-10-11", none, none, none, none,
        none, none, none, none, none, none, none, none⟩])]) ∧
    (⟨"Oct event", "2025-10-11", none, none, none, none, none,
        none, none, none, none, none, none, none⟩ : EventRec) ∉
      assocGet (filterEvents
        [("2025-10-11", [⟨"Oct event", "2025-10-11", none, none, none, none, none,
          none, none, none, none, none, none, none⟩])] ⟨2025, 9, 1⟩) 5 := by
  have h := (filterEvents_buckets
    [("2025-10-11", [⟨"Oct event", "2025-10-11", none, none, none, none, none,
      none, none, none, none, none, none, none⟩])] ⟨2025, 9, 1⟩
    ⟨"Oct event", "2025-10-11", none, none, none, none, none,
      none, none, none, none, none, none, none⟩ 2025 10 11
    (by decide) (by norm_num) (by norm_num) (by norm_num) (by norm_num) (by decide)).1
    ⟨rfl, by norm_num⟩
  exact ⟨h.1, h.2.1, h.2.2 5 (by norm_num)⟩

/-! ## C6: 12-hour to 24-hour time normalization -/

/-- The grid string for hour slot `h` (0-based, hour `h + 1`) and half-hour
slot `half`, exactly as `generateTimeOptions` builds it. -/
def gridTime (h half : Nat) : String :=
  toString (h + 1) ++ ":" ++ (if half = 0 then "00" else "30")

/-- The 24-hour string the claim describes: PM with hour other than 12 adds
12, 12 AM maps to hour 0, 12 PM stays 12, and both fields are zero-padded
to two digits. -/
def claimTime24 (h mm : Nat) (pm : Bool) : String :=
  (if (if pm ∧ h ≠ 12 then h + 12 else if ¬pm ∧ h = 12 then 0 else h) < 10 then
      "0" ++ toString (if pm ∧ h ≠ 12 then h + 12 else if ¬pm ∧ h = 12 then 0 else h)
    else toString (if pm ∧ h ≠ 12 then h + 12 else if ¬pm ∧ h = 12 then 0 else h)) ++
    ":" ++ (if mm < 10 then "0" ++ toString mm else toString mm)

/-- C6: for every option of the half-hour grid (hour 1..12, minutes 00 or
30) combined with either AM or PM by the time selector, the submit-time
normalization produces exactly the 24-hour string the claim describes, and
every such option string is one of the generated grid options. -/
theorem sanitizeTime_grid : ∀ h : Nat, h < 12 → ∀ half : Nat, half < 2 → ∀ pm : Bool,
    (sanitizeTime (handleTimeSelection (gridTime h half) (if pm then "PM" else "AM")) =
      some (claimTime24 (h + 1) (if half = 0 then 0 else 30) pm)) ∧
    gridTime h half ∈ generateTimeOptions := by
  decide

/-- C6 (witness): the grid option 2:30 with PM normalizes to 14:30. -/
theorem sanitizeTime_grid_witness :
    (1 : Nat) < 12 ∧ (1 : Nat) < 2 ∧
    ((sanitizeTime (handleTimeSelection (gridTime 1 1) (if true then "PM" else "AM")) =
        some (claimTime24 (1 + 1) (if (1 : Nat) = 0 then 0 else 30) true)) ∧
      gridTime 1 1 ∈ generateTimeOptions) :=
  ⟨by norm_num, by norm_num, sanitizeTime_grid 1 (by norm_num) 1 (by norm_num) true⟩

/-! ## C8: price validation -/

/-- C8: replacing the price of any draft by `"-5"` yields the
negative-price error, replacing it by the empty string yields no price
error, and in general a present price passes exactly when it parses to a
number that is not negative. -/
theorem validateForm_price_field (dd : ValidationInput) :
    (validateForm { dd with price := "-5" }).price = "Price cannot be negative" ∧
    (validateForm { dd with price := "" }).price = "" ∧
    (dd.price ≠ "" →
      ((validateForm dd).price = "" ↔
        ∃ v, jsParseFloat dd.price = some v ∧ jsNumNeg v = false)) := by
  refine ⟨?_, ?_, ?_⟩
  · simp only [validateForm]
    decide
  · simp only [validateForm]
    decide
  · intro hne
    show (if dd.price ≠ "" then
        match jsParseFloat dd.price with
        | none => "Price must be a valid number"
        | some v => if jsNumNeg v then "Price cannot be negative" else ""
      else "") = "" ↔ _
    rw [if_pos hne]
    cases hp : jsParseFloat dd.price with
    | none =>
      constructor
      · intro h
        exact absurd h (by decide)
      · rintro ⟨v, hv, -⟩
        exact absurd hv (by simp)
    | some v =>
      cases hn : jsNumNeg v with
      | false =>
        simp only [hn, if_false]
        exact ⟨fun _ => ⟨v, rfl, hn⟩, fun _ => rfl⟩
      | true =>
        simp only [hn, if_true]
        constructor
        · intro h
          exact absurd h (by decide)
        · rintro ⟨v2, hv2, hneg⟩
          injection hv2 with h
          rw [← h, hn] at hneg
          exact Bool.noConfusion hneg

/-- C8 (witness): the statement at a concrete draft whose price is the
present, valid string 3: the minus five draft errors, the empty draft and
the valid draft do not. -/
theorem validateForm_price_field_witness :
    (validateForm { (⟨"N", "3", "", "https://e.com", none, "L", some "2099-01-01",
        some "14:30", "O", "a@b.com"⟩ : ValidationInput) with price := "-5" }).price =
      "Price cannot be negative" ∧
    (validateForm { (⟨"N", "3", "", "https://e.com", none, "L", some "2099-01-01",
        some "14:30", "O", "a@b.com"⟩ : ValidationInput) with price := "" }).price = "" ∧
    (validateForm (⟨"N", "3", "", "https://e.com", none, "L", some "2099-01-01",
        some "14:30", "O", "a@b.com"⟩ : ValidationInput)).price = "" :=
  ⟨(validateForm_price_field ⟨"N", "3", "", "https://e.com", none, "L", some "2099-01-01",
      some "14:30", "O", "a@b.com"⟩).1,
    (validateForm_price_field ⟨"N", "3", "", "https://e.com", none, "L", some "2099-01-01",
      some "14:30", "O", "a@b.com"⟩).2.1,
    ((validateForm_price_field ⟨"N", "3", "", "https://e.com", none, "L", some "2099-01-01",
      some "14:30", "O", "a@b.com"⟩).2.2 (by decide)).mpr ⟨.finite 3 1, by decide, by decide⟩⟩

/-! ## C7: submit success and failure handling -/

/-- Whether the POST attempt throws inside the try block: a rejected fetch,
a non-2xx status, or a 2xx body that does not parse as JSON. -/
def postFailed : PostResult → Bool
  | .netError => true
  | .resp ok bodyIsJson => !ok || !bodyIsJson

/-- A concrete valid draft used to witness the submit flow. -/
def sampleDraft : FormData :=
  { name := "Craft Fair", price := "", description := "", link := "https://example.com",
    kids := none, location := "Union Market", date := "2099-01-01", time := "2:30 PM",
    organization := "DC Crafts", email := "a@b.com" }

/-- The component state holding the sample draft before submission. -/
def sampleState : SubmitState :=
  { formData := sampleDraft,
    errors := ⟨"", "", "", "", "", "", "", "", "", ""⟩,
    isSubmitted := false, isSubmitting := false, apiError := "" }

/-- C7 (counterexample): the claim calls every 2xx response a success, but
for a validation-passing draft and a 2xx response whose body is not JSON,
`response.json()` rejects inside the try block: the draft is left unchanged
and no confirmation is shown, contradicting the claim that a 2xx POST
resets the draft and shows the confirmation. -/
theorem handleSubmit_counterexample :
    allClear (submitValidation sampleDraft) = true ∧
    (handleSubmit sampleState (.resp true false)).st.formData = sampleDraft ∧
    sampleDraft ≠ emptyFormData ∧
    (handleSubmit sampleState (.resp true false)).st.isSubmitted = false ∧
    (handleSubmit sampleState (.resp true false)).dismissTimerMs = none := by
  refine ⟨by decide, by decide, by decide, by decide, by decide⟩

/-- C7 (amended): for every submission attempt that passes validation: if
the POST throws (network error, non-2xx, or a 2xx body that is not JSON)
the failure banner is surfaced and every draft field keeps its pre-submit
value; if the POST returns 2xx with a JSON body, the draft is reset to the
initial empty state, the confirmation is shown, and its dismissal is
scheduled after the fixed 3000 ms delay. -/
theorem handleSubmit_spec (s0 : SubmitState) (post : PostResult)
    (hvalid : allClear (submitValidation s0.formData) = true) :
    (postFailed post = true →
      (handleSubmit s0 post).st.formData = s0.formData ∧
      (handleSubmit s0 post).st.apiError = submitFailedMsg ∧
      (handleSubmit s0 post).st.isSubmitted = s0.isSubmitted ∧
      (handleSubmit s0 post).dismissTimerMs = none) ∧
    (postFailed post = false →
      (handleSubmit s0 post).st.formData = emptyFormData ∧
      (handleSubmit s0 post).st.isSubmitted = true ∧
      (handleSubmit s0 post).st.apiError = "" ∧
      (handleSubmit s0 post).dismissTimerMs = some 3000) := by
  unfold handleSubmit
  rw [if_pos hvalid]
  cases post with
  | netError =>
    constructor
    · intro _
      exact ⟨rfl, rfl, rfl, rfl⟩
    · intro hf
      simp [postFailed] at hf
  | resp ok bodyIsJson =>
    cases ok <;> cases bodyIsJson <;> simp [postFailed]

/-- C7 (witness): the amended statement at the sample valid draft with a
rejected fetch: the banner is surfaced and the draft is kept. -/
theorem handleSubmit_spec_witness :
    (handleSubmit sampleState .netError).st.formData = sampleState.formData ∧
    (handleSubmit sampleState .netError).st.apiError = submitFailedMsg ∧
    (handleSubmit sampleState .netError).st.isSubmitted = sampleState.isSubmitted ∧
    (handleSubmit sampleState .netError).dismissTimerMs = none :=
  (handleSubmit_spec sampleState .netError (by decide)).1 rfl

/-! ## C10: idempotence of the text sanitizer -/

theorem not_mem_replaceAllChar {c : Char} {rep : List Char} (hc : c ∉ rep)
    (l : List Char) : c ∉ replaceAllChar c rep l := by
  induction l with
  | nil => simp [replaceAllChar]
  | cons x t ih =>
    simp only [replaceAllChar]
    by_cases hx : x = c
    · rw [if_pos hx]
      simp only [List.mem_append]
      rintro (h | h)
      · exact hc h
      · exact ih h
    · rw [if_neg hx]
      simp only [List.mem_cons]
      rintro (h | h)
      · exact hx h.symm
      · exact ih h

theorem mem_replaceAllChar {x c : Char} {rep l : List Char}
    (h : x ∈ replaceAllChar c rep l) : x ∈ rep ∨ x ∈ l := by
  induction l with
  | nil => simp [replaceAllChar] at h
  | cons a t ih =>
    simp only [replaceAllChar] at h
    by_cases ha : a = c
    · rw [if_pos ha] at h
      rcases List.mem_append.mp h with h | h
      · exact Or.inl h
      · rcases ih h with h | h
        · exact Or.inl h
        · exact Or.inr (List.mem_cons_of_mem a h)
    · rw [if_neg ha] at h
      rcases List.mem_cons.mp h with h | h
      · exact Or.inr (h ▸ List.mem_cons_self a t)
      · rcases ih h with h2 | h2
        · exact Or.inl h2
        · exact Or.inr (List.mem_cons_of_mem a h2)

theorem replaceAllChar_eq_self {c : Char} (rep : List Char) {l : List Char}
    (h : c ∉ l) : replaceAllChar c rep l = l := by
  induction l with
  | nil => rfl
  | cons a t ih =>
    simp only [replaceAllChar]
    rw [if_neg (fun hh => h (by rw [← hh]; exact List.mem_cons_self a t))]
    rw [ih (fun hh => h (List.mem_cons_of_mem a hh))]

theorem dropWhile_dropWhile (p : Char → Bool) (l : List Char) :
    (l.dropWhile p).dropWhile p = l.dropWhile p := by
  induction l with
  | nil => rfl
  | cons a t ih =>
    by_cases ha : p a
    · simp [List.dropWhile_cons, ha, ih]
    · simp [List.dropWhile_cons, ha]

theorem dropWhile_append_last (p : Char → Bool) {x : Char} (hx : p x = false)
    (l : List Char) : (l ++ [x]).dropWhile p = l.dropWhile p ++ [x] := by
  induction l with
  | nil => simp [List.dropWhile_cons, hx]
  | cons a t ih =>
    by_cases ha : p a
    · simp [List.dropWhile_cons, ha, ih]
    · simp [List.dropWhile_cons, ha]

theorem dropWhile_head_false (p : Char → Bool) (l : List Char) {x : Char}
    {t : List Char} (h : l.dropWhile p = x :: t) : p x = false := by
  induction l with
  | nil => simp at h
  | cons a t2 ih =>
    by_cases ha : p a
    · rw [List.dropWhile_cons_of_pos ha] at h
      exact ih h
    · rw [List.dropWhile_cons_of_neg ha] at h
      cases h
      exact Bool.of_not_eq_true ha

theorem mem_dropWhile_imp (p : Char → Bool) {x : Char} {l : List Char}
    (h : x ∈ l.dropWhile p) : x ∈ l := by
  induction l with
  | nil => simp at h
  | cons a t ih =>
    by_cases ha : p a
    · rw [List.dropWhile_cons_of_pos ha] at h
      exact List.mem_cons_of_mem a (ih h)
    · rw [List.dropWhile_cons_of_neg ha] at h
      exact h

theorem mem_jsTrim {x : Char} {l : List Char} (h : x ∈ jsTrim l) : x ∈ l := by
  unfold jsTrim at h
  rw [List.mem_reverse] at h
  have h2 := mem_dropWhile_imp isJsWs h
  rw [List.mem_reverse] at h2
  exact mem_dropWhile_imp isJsWs h2

theorem jsTrim_idem (l : List Char) : jsTrim (jsTrim l) = jsTrim l := by
  unfold jsTrim
  have hA : (((l.dropWhile isJsWs).reverse.dropWhile isJsWs).reverse).dropWhile isJsWs =
      ((l.dropWhile isJsWs).reverse.dropWhile isJsWs).reverse := by
    cases hu : l.dropWhile isJsWs with
    | nil => simp
    | cons x t =>
      have hx : isJsWs x = false := dropWhile_head_false isJsWs l hu
      rw [show (x :: t).reverse = t.reverse ++ [x] by simp]
      rw [dropWhile_append_last isJsWs hx]
      rw [show (t.reverse.dropWhile isJsWs ++ [x]).reverse =
        x :: (t.reverse.dropWhile isJsWs).reverse by simp]
      rw [List.dropWhile_cons_of_neg (by simp [hx])]
  rw [hA]
  rw [List.reverse_reverse, dropWhile_dropWhile]

/-- Idempotence of the sanitizer at the character level. -/
theorem sanitizeChars_idem (l : List Char) : sanitizeChars (sanitizeChars l) = sanitizeChars l := by
  have hlt : '<' ∉ sanitizeChars l := by
    intro hmem
    have h1 := mem_jsTrim hmem
    rcases mem_replaceAllChar h1 with h | h
    · simp at h
    · rcases mem_replaceAllChar h with h | h
      · simp at h
      · rcases mem_replaceAllChar h with h | h
        · simp at h
        · exact not_mem_replaceAllChar (by simp) l h
  have hgt : '>' ∉ sanitizeChars l := by
    intro hmem
    have h1 := mem_jsTrim hmem
    rcases mem_replaceAllChar h1 with h | h
    · simp at h
    · rcases mem_replaceAllChar h with h | h
      · simp at h
      · exact not_mem_replaceAllChar (by simp) _ h
  have hq : Char.ofNat 34 ∉ sanitizeChars l := by
    intro hmem
    have h1 := mem_jsTrim hmem
    rcases mem_replaceAllChar h1 with h | h
    · simp at h
    · exact not_mem_replaceAllChar (by simp) _ h
  have ha : Char.ofNat 39 ∉ sanitizeChars l := by
    intro hmem
    exact not_mem_replaceAllChar (by simp) _ (mem_jsTrim hmem)
  show jsTrim
      (replaceAllChar (Char.ofNat 39) ("&#039;".data)
        (replaceAllChar (Char.ofNat 34) ("&quot;".data)
          (replaceAllChar '>' ("&gt;".data)
            (replaceAllChar '<' ("&lt;".data) (sanitizeChars l))))) = sanitizeChars l
  rw [replaceAllChar_eq_self _ hlt, replaceAllChar_eq_self _ hgt,
    replaceAllChar_eq_self _ hq, replaceAllChar_eq_self _ ha]
  show jsTrim (jsTrim _) = _
  rw [jsTrim_idem]
  rfl

/-- C10: the text-field sanitizer is idempotent: sanitizing twice equals
sanitizing once, because the first pass leaves no `<`, `>`, double quote or
apostrophe and no leading or trailing whitespace. -/
theorem sanitizeInput_idempotent (s : String) :
    sanitizeInput (sanitizeInput s) = sanitizeInput s :=
  congrArg String.mk (sanitizeChars_idem s.data)
